import Mathlib

/-! Shallow embedding of the CodeCollab backend (backend/index.js together
with migrations/001_add_chat.sql): the join-request admission machine, the
membership store, the room router and the message service.  REST and socket
handlers are modelled as pure state-transition functions over an explicit
relational state; SERIAL ids and server timestamps are supplied as explicit
parameters, and timestamps are naturals. -/

/-- Status column `request_status` of the `join_requests` table. -/
inductive ReqStatus
  | pending
  | accepted
  | rejected
deriving DecidableEq, Repr

/-- Row of the `projects` table, restricted to the fields the modelled
handlers read or write.  `createdById` models the nullable `created_by_id`
column; `lastMessageAt` and `lastMessageId` are the preview columns added by
migration 001_add_chat.sql. -/
structure Project where
  id : Nat
  createdById : Option Nat
  lastMessageAt : Option Nat
  lastMessageId : Option Nat
deriving DecidableEq, Repr

/-- Row of the `join_requests` table. -/
structure JoinRequest where
  id : Nat
  userId : Nat
  projectId : Nat
  status : ReqStatus
  requestedAt : Nat
deriving DecidableEq, Repr

/-- Role column of the `project_members` table. -/
inductive Role
  | owner
  | member
deriving DecidableEq, Repr

/-- Row of the `project_members` table. -/
structure MemberRow where
  projectId : Nat
  userId : Nat
  role : Role
deriving DecidableEq, Repr

/-- Row of the `messages` table (metadata kept as its raw JSON text). -/
structure Message where
  id : Nat
  projectId : Nat
  senderId : Option Nat
  content : String
  metadata : String
  createdAt : Nat
  deleted : Bool
deriving DecidableEq, Repr

/-- The durable relational state touched by the modelled handlers. -/
structure DB where
  projects : List Project
  joinRequests : List JoinRequest
  members : List MemberRow
  messages : List Message
deriving DecidableEq, Repr

/-- Lookup `SELECT ... FROM projects WHERE id = $1` (first matching row). -/
def findProject (db : DB) (pid : Nat) : Option Project :=
  db.projects.find? (fun p => p.id == pid)

/-- Count `COUNT(*) FILTER (WHERE user_id = $1 AND request_status = 'pending')`
over `join_requests`. -/
def requestsSent (db : DB) (uid : Nat) : Nat :=
  (db.joinRequests.filter
    (fun r => r.userId == uid && r.status == ReqStatus.pending)).length

/-- Count `COUNT(*) FILTER (WHERE user_id = $1 AND request_status = 'accepted')`
over `join_requests`. -/
def projectsJoined (db : DB) (uid : Nat) : Nat :=
  (db.joinRequests.filter
    (fun r => r.userId == uid && r.status == ReqStatus.accepted)).length

/-- The guard `project.created_by_id && project.created_by_id === userId` of
the join-request handler, with JavaScript truthiness: a NULL or zero
`created_by_id` is falsy and skips the ownership rejection. -/
def ownBlock (p : Project) (uid : Nat) : Bool :=
  match p.createdById with
  | none => false
  | some o => !(o == 0) && o == uid

/-- Response of POST /api/join-request. -/
inductive JRCreateOut
  | httpError (status : Nat) (msg : String)
  | ok (httpStatus : Nat) (status : String) (requests_sent projects_joined : Nat)
deriving DecidableEq, Repr

/-- Handler POST /api/join-request (backend/index.js lines 261-366), on the
main path where the table-level unique constraint `unique_user_project`
exists (the 42704 fallback is not taken).  The conditional insert
`ON CONFLICT ON CONSTRAINT unique_user_project DO NOTHING RETURNING id` is
modelled as an insert-if-absent keyed on `(user_id, project_id)`; `newId`
and `now` model the SERIAL id and `NOW()` supplied by the store. -/
def joinRequestCreate (db : DB) (userId projectId newId now : Nat) :
    DB × JRCreateOut :=
  if projectId == 0 then
    (db, JRCreateOut.httpError 400 "Missing projectId in request body")
  else
    match findProject db projectId with
    | none => (db, JRCreateOut.httpError 400 "Project not found")
    | some p =>
      if ownBlock p userId then
        (db, JRCreateOut.httpError 400 "You cannot request to join your own project")
      else if db.joinRequests.any
          (fun r => r.userId == userId && r.projectId == projectId) then
        (db, JRCreateOut.ok 200 "already_exists"
          (requestsSent db userId) (projectsJoined db userId))
      else
        let db1 : DB := { db with joinRequests := db.joinRequests ++
          [{ id := newId, userId := userId, projectId := projectId,
             status := ReqStatus.pending, requestedAt := now }] }
        (db1, JRCreateOut.ok 201 "created"
          (requestsSent db1 userId) (projectsJoined db1 userId))

/-- WHERE clause of the conditional UPDATE shared by accept and reject:
`id = $1 AND request_status = 'pending' AND EXISTS (SELECT 1 FROM projects p
WHERE p.id = join_requests.project_id AND p.created_by_id = $2)`. -/
def transitionGuard (db : DB) (requestId ownerId : Nat) (r : JoinRequest) : Bool :=
  r.id == requestId && r.status == ReqStatus.pending &&
    db.projects.any (fun p => p.id == r.projectId && p.createdById == some ownerId)

/-- Response of POST /api/requests/:id/accept and /reject. -/
inductive ReqDecisionOut
  | authError (httpStatus : Nat) (msg : String)
  | ok (requestId : Nat) (status : ReqStatus) (requesterId projectId : Nat)
deriving DecidableEq, Repr

/-- Statement `INSERT INTO project_members ... ON CONFLICT (project_id,
user_id) DO NOTHING`: idempotent insert into the membership store. -/
def ensureMember (db : DB) (pid uid : Nat) (role : Role) : DB :=
  if db.members.any (fun m => m.projectId == pid && m.userId == uid) then db
  else { db with members := db.members ++
    [{ projectId := pid, userId := uid, role := role }] }

/-- Handler POST /api/requests/:id/accept (backend/index.js lines 596-678):
one conditional UPDATE guarded by `transitionGuard`; zero rows affected
yields a single 403 response, otherwise the matched rows move to `accepted`
and a membership row for the first returned row is inserted idempotently. -/
def acceptRequest (db : DB) (requestId ownerId : Nat) : DB × ReqDecisionOut :=
  match db.joinRequests.filter (transitionGuard db requestId ownerId) with
  | [] => (db, ReqDecisionOut.authError 403
      "Not authorized, request not found, or already handled")
  | u :: _ =>
    let db1 : DB := { db with joinRequests := db.joinRequests.map (fun r =>
      if transitionGuard db requestId ownerId r then
        { r with status := ReqStatus.accepted } else r) }
    let db2 := ensureMember db1 u.projectId u.userId Role.member
    (db2, ReqDecisionOut.ok u.id ReqStatus.accepted u.userId u.projectId)

/-- Handler POST /api/requests/:id/reject (backend/index.js lines 681-732):
same conditional UPDATE moving the row to `rejected`, with no membership
side effect. -/
def rejectRequest (db : DB) (requestId ownerId : Nat) : DB × ReqDecisionOut :=
  match db.joinRequests.filter (transitionGuard db requestId ownerId) with
  | [] => (db, ReqDecisionOut.authError 403
      "Not authorized or request not found")
  | u :: _ =>
    let db1 : DB := { db with joinRequests := db.joinRequests.map (fun r =>
      if transitionGuard db requestId ownerId r then
        { r with status := ReqStatus.rejected } else r) }
    (db1, ReqDecisionOut.ok u.id ReqStatus.rejected u.userId u.projectId)

/-- Query `SELECT 1 FROM project_members WHERE project_id = $1 AND
user_id = $2`: the membership check used by every chat entry point. -/
def isMember (db : DB) (pid uid : Nat) : Bool :=
  db.members.any (fun m => m.projectId == pid && m.userId == uid)

/-- Comparator realising `ORDER BY created_at DESC`. -/
def newestFirst (a b : Message) : Bool :=
  decide (b.createdAt ≤ a.createdAt)

/-- Cursor clause `created_at < $2` of the paginated query, absent when no
`before` parameter was supplied. -/
def cursorKeep (before : Option Nat) (m : Message) : Bool :=
  match before with
  | none => true
  | some c => decide (m.createdAt < c)

/-- Row filter of the paginated query: `project_id = $1 AND deleted = false`
together with the optional cursor clause. -/
def fetchKeep (pid : Nat) (before : Option Nat) (m : Message) : Bool :=
  m.projectId == pid && !m.deleted && cursorKeep before m

/-- The paginated query before LIMIT: filter by project, soft-delete flag and
cursor, then `ORDER BY created_at DESC`. -/
def fetchSorted (msgs : List Message) (pid : Nat) (before : Option Nat) :
    List Message :=
  (msgs.filter (fetchKeep pid before)).mergeSort newestFirst

/-- The full paginated query, LIMIT included (nonnegative limits only). -/
def fetchList (msgs : List Message) (pid : Nat) (before : Option Nat)
    (limit : Nat) : List Message :=
  (fetchSorted msgs pid before).take limit

/-- Computation `Math.min(parseInt(req.query.limit, 10) || 50, 200)`:
`limitQ` is the `parseInt` result, with `none` standing for a missing or
non-numeric (NaN) parameter; `|| 50` replaces NaN and 0 by 50. -/
def effectiveLimit (limitQ : Option Int) : Int :=
  min (match limitQ with
       | none => 50
       | some v => if v == 0 then 50 else v) 200

/-- PostgreSQL semantics of a parameterised `LIMIT $n`: a negative limit
raises an error (SQLSTATE 2201W, caught by the handler), a nonnegative one
truncates the result set. -/
def sqlLimit (lim : Int) (l : List Message) : Except Unit (List Message) :=
  if lim < 0 then Except.error () else Except.ok (l.take lim.toNat)

/-- Response of GET /api/projects/:id/messages. -/
inductive FetchOut
  | httpError (status : Nat) (msg : String)
  | ok (messages : List Message)
deriving DecidableEq, Repr

/-- Handler GET /api/projects/:id/messages (backend/index.js lines 810-852):
reject an unparsable or zero project id, verify membership, then run the
paginated query with the clamped limit; a storage error (in particular a
negative LIMIT) is caught and reported as a generic 500. -/
def getMessages (db : DB) (userId pid : Nat) (limitQ : Option Int)
    (before : Option Nat) : FetchOut :=
  if pid == 0 then FetchOut.httpError 400 "Invalid project id"
  else if !isMember db pid userId then FetchOut.httpError 403 "Not a member"
  else
    match sqlLimit (effectiveLimit limitQ) (fetchSorted db.messages pid before) with
    | Except.error _ => FetchOut.httpError 500 "Server error"
    | Except.ok l => FetchOut.ok l

/-- Socket acknowledgement `{ok, message}` with a string message. -/
structure Ack where
  ok : Bool
  msg : String
deriving DecidableEq, Repr

/-- Socket handler joinProject (backend/index.js lines 912-932): the room
router's registry is the list of `(projectId, socketId)` pairs; the
connection is added only after the membership check passes. -/
def joinProject (db : DB) (rooms : List (Nat × Nat)) (conn pid uid : Nat) :
    List (Nat × Nat) × Ack :=
  if pid == 0 then (rooms, { ok := false, msg := "Invalid project id" })
  else if !isMember db pid uid then
    (rooms, { ok := false, msg := "Not a member of project" })
  else if (pid, conn) ∈ rooms then
    (rooms, { ok := true, msg := "Joined project room" })
  else
    ((pid, conn) :: rooms, { ok := true, msg := "Joined project room" })

/-- Broadcast payload of the `newMessage` event. -/
structure MsgPayload where
  id : Nat
  project_id : Nat
  sender_id : Nat
  sender_username : String
  content : String
  metadata : String
  created_at : Nat
deriving DecidableEq, Repr

/-- Acknowledgement of the sendMessage socket handler: success carries the
materialised message payload, failure a string reason. -/
inductive SendAck
  | ok (message : MsgPayload)
  | fail (msg : String)
deriving DecidableEq, Repr

/-- Outcome of the sendMessage socket handler: the database after the
transaction, the emitted room broadcast (payload plus the sockets currently
in the room) when the transaction committed, and the acknowledgement. -/
structure SendOut where
  db : DB
  broadcast : Option (MsgPayload × List Nat)
  ack : SendAck
deriving DecidableEq, Repr

/-- Model of JavaScript String.prototype.trim used by the handler: strip
leading and trailing whitespace characters. -/
def jsTrim (s : String) : String :=
  String.mk (((s.data.dropWhile Char.isWhitespace).reverse.dropWhile
    Char.isWhitespace).reverse)

section
set_option linter.unusedVariables false

/-- Socket handler sendMessage (backend/index.js lines 947-1009).
`content = none` models a missing content field; `txOk = false` models the
storage transaction aborting, taking the ROLLBACK path; `fanoutOk` models
whether the best-effort socket delivery of the post-commit `emit` succeeds,
an outcome the handler never observes.  `newId` and `now` are the SERIAL id
and server timestamp produced by the insert. -/
def sendMessage (db : DB) (rooms : List (Nat × Nat)) (uid : Nat)
    (username : String) (pid : Nat) (content : Option String)
    (metadata : Option String) (txOk : Bool) (newId now : Nat)
    (fanoutOk : Bool) : SendOut :=
  let contentBad : Bool :=
    match content with
    | none => true
    | some c => (jsTrim c).length == 0
  if pid == 0 || contentBad then
    { db := db, broadcast := none,
      ack := SendAck.fail "Invalid payload. content required." }
  else
    let text := jsTrim (content.getD "")
    if text.length > 5000 then
      { db := db, broadcast := none, ack := SendAck.fail "Message too long" }
    else if !isMember db pid uid then
      { db := db, broadcast := none, ack := SendAck.fail "Not a member" }
    else if txOk then
      let meta := metadata.getD "{}"
      let db1 : DB := { db with
        messages := db.messages ++
          [{ id := newId, projectId := pid, senderId := some uid,
             content := text, metadata := meta, createdAt := now,
             deleted := false }],
        projects := db.projects.map (fun p =>
          if p.id == pid then
            { p with lastMessageAt := some now, lastMessageId := some newId }
          else p) }
      let payload : MsgPayload :=
        { id := newId, project_id := pid, sender_id := uid,
          sender_username := username, content := text, metadata := meta,
          created_at := now }
      { db := db1,
        broadcast := some (payload, (rooms.filter (fun rc => rc.1 == pid)).map (fun rc => rc.2)),
        ack := SendAck.ok payload }
    else
      { db := db, broadcast := none, ack := SendAck.fail "DB error" }

end

/-- Sample state: project 7 owned by user 1 (its only member), a pending
request with id 10 from user 2, and a few stored messages. -/
def sampleDB : DB :=
  { projects := [{ id := 7, createdById := some 1,
                   lastMessageAt := none, lastMessageId := none }],
    joinRequests := [{ id := 10, userId := 2, projectId := 7,
                       status := ReqStatus.pending, requestedAt := 100 }],
    members := [{ projectId := 7, userId := 1, role := Role.owner }],
    messages :=
      [{ id := 1, projectId := 7, senderId := some 1, content := "a",
         metadata := "{}", createdAt := 10, deleted := false },
       { id := 2, projectId := 7, senderId := some 1, content := "b",
         metadata := "{}", createdAt := 20, deleted := false },
       { id := 3, projectId := 7, senderId := some 1, content := "c",
         metadata := "{}", createdAt := 30, deleted := true },
       { id := 4, projectId := 8, senderId := some 1, content := "d",
         metadata := "{}", createdAt := 40, deleted := false }] }

/-- Sample state with no join request yet (for create witnesses). -/
def sampleDB0 : DB := { sampleDB with joinRequests := [] }

theorem ensureMember_joinRequests (db : DB) (pid uid : Nat) (role : Role) :
    (ensureMember db pid uid role).joinRequests = db.joinRequests := by
  unfold ensureMember; split <;> rfl

theorem ensureMember_projects (db : DB) (pid uid : Nat) (role : Role) :
    (ensureMember db pid uid role).projects = db.projects := by
  unfold ensureMember; split <;> rfl

theorem ensureMember_messages (db : DB) (pid uid : Nat) (role : Role) :
    (ensureMember db pid uid role).messages = db.messages := by
  unfold ensureMember; split <;> rfl

/-- C1: for every accept or reject call, a stored join-request row is
transitioned (to accepted, resp. rejected) exactly when it is the addressed
row, its current status is pending, and the caller owns its project;
whenever no stored row satisfies that guard — row absent, not pending, or
caller not the owner — the database is left unchanged and the endpoint
answers with its one fixed 403 AuthorizationError, the same whichever
precondition failed. -/
theorem claim_C1_guarded_transition (db : DB) (rid oid : Nat) :
    (∀ r, transitionGuard db rid oid r = true ↔
       (r.id = rid ∧ r.status = ReqStatus.pending ∧
        ∃ p ∈ db.projects, p.id = r.projectId ∧ p.createdById = some oid)) ∧
    ((∀ r ∈ db.joinRequests, transitionGuard db rid oid r = false) →
       acceptRequest db rid oid = (db, ReqDecisionOut.authError 403
         "Not authorized, request not found, or already handled") ∧
       rejectRequest db rid oid = (db, ReqDecisionOut.authError 403
         "Not authorized or request not found")) ∧
    ((∃ r ∈ db.joinRequests, transitionGuard db rid oid r = true) →
       (acceptRequest db rid oid).1.joinRequests =
         db.joinRequests.map (fun r =>
           if transitionGuard db rid oid r then
             { r with status := ReqStatus.accepted } else r) ∧
       (rejectRequest db rid oid).1.joinRequests =
         db.joinRequests.map (fun r =>
           if transitionGuard db rid oid r then
             { r with status := ReqStatus.rejected } else r)) := by
  refine ⟨?_, ?_, ?_⟩
  · intro r
    simp only [transitionGuard, Bool.and_eq_true, beq_iff_eq,
      List.any_eq_true, decide_eq_true_eq]
    constructor
    · rintro ⟨⟨h1, h2⟩, p, hp, h3, h4⟩
      exact ⟨h1, h2, p, hp, h3, h4⟩
    · rintro ⟨h1, h2, p, hp, h3, h4⟩
      exact ⟨⟨h1, h2⟩, p, hp, h3, h4⟩
  · intro h
    have hf : db.joinRequests.filter (transitionGuard db rid oid) = [] :=
      List.filter_eq_nil_iff.mpr (fun a ha => by simp [h a ha])
    constructor
    · simp [acceptRequest, hf]
    · simp [rejectRequest, hf]
  · rintro ⟨r, hr, hg⟩
    have hf : db.joinRequests.filter (transitionGuard db rid oid) ≠ [] := by
      intro h0
      exact absurd hg (by simpa using (List.filter_eq_nil_iff.mp h0) r hr)
    cases hc : db.joinRequests.filter (transitionGuard db rid oid) with
    | nil => exact absurd hc hf
    | cons u rest =>
      constructor
      · simp [acceptRequest, hc, ensureMember_joinRequests]
      · simp [rejectRequest, hc]

/-- Witness for C1 at the sample state: a caller who is not the owner gets
the fixed 403 and mutates nothing; the owner's reject transitions the row. -/
theorem claim_C1_guarded_transition_witness :
    acceptRequest sampleDB 10 2 = (sampleDB, ReqDecisionOut.authError 403
      "Not authorized, request not found, or already handled") ∧
    (rejectRequest sampleDB 10 1).1.joinRequests =
      [{ id := 10, userId := 2, projectId := 7,
         status := ReqStatus.rejected, requestedAt := 100 }] := by
  constructor
  · exact ((claim_C1_guarded_transition sampleDB 10 2).2.1 (by decide)).1
  · rw [((claim_C1_guarded_transition sampleDB 10 1).2.2 (by decide)).2]
    decide

/-- C2: POST /api/join-request fails with a 400 ValidationError when the
referenced project does not exist or when the caller is the project's owner;
otherwise it is a create-if-absent keyed on (userId, projectId): an existing
row for the pair yields already_exists with HTTP 200 and no mutation, an
absent pair inserts a pending row and yields created with HTTP 201, each
together with the requester's recomputed requests_sent and projects_joined
counts. -/
theorem claim_C2_create_if_absent (db : DB) (uid pid newId now : Nat)
    (hpid : pid ≠ 0) :
    (findProject db pid = none →
       ∃ m, joinRequestCreate db uid pid newId now =
         (db, JRCreateOut.httpError 400 m)) ∧
    (∀ p, findProject db pid = some p → p.createdById = some uid → uid ≠ 0 →
       joinRequestCreate db uid pid newId now =
         (db, JRCreateOut.httpError 400
           "You cannot request to join your own project")) ∧
    ((∃ p, findProject db pid = some p ∧ ownBlock p uid = false) →
       ((∃ r ∈ db.joinRequests, r.userId = uid ∧ r.projectId = pid) →
          joinRequestCreate db uid pid newId now =
            (db, JRCreateOut.ok 200 "already_exists"
              (requestsSent db uid) (projectsJoined db uid))) ∧
       ((∀ r ∈ db.joinRequests, ¬(r.userId = uid ∧ r.projectId = pid)) →
          joinRequestCreate db uid pid newId now =
            (let db1 : DB := { db with joinRequests := db.joinRequests ++
               [{ id := newId, userId := uid, projectId := pid,
                  status := ReqStatus.pending, requestedAt := now }] }
             (db1, JRCreateOut.ok 201 "created"
               (requestsSent db1 uid) (projectsJoined db1 uid))))) := by
  have h0 : (pid == 0) = false := by simpa using hpid
  refine ⟨?_, ?_, ?_⟩
  · intro hnone
    exact ⟨"Project not found", by simp [joinRequestCreate, h0, hnone]⟩
  · intro p hp howner huid
    have hob : ownBlock p uid = true := by
      simp [ownBlock, howner, huid]
    simp [joinRequestCreate, h0, hp, hob]
  · rintro ⟨p, hp, hob⟩
    constructor
    · rintro ⟨r, hr, h1, h2⟩
      have hany : db.joinRequests.any
          (fun r => r.userId == uid && r.projectId == pid) = true :=
        List.any_eq_true.mpr ⟨r, hr, by simp [h1, h2]⟩
      simp [joinRequestCreate, h0, hp, hob, hany]
    · intro hni
      have hany : db.joinRequests.any
          (fun r => r.userId == uid && r.projectId == pid) = false := by
        rw [List.any_eq_false]
        intro r hr
        simp only [Bool.and_eq_true, beq_iff_eq, not_and]
        exact fun ha hb => hni r hr ⟨ha, hb⟩
      simp [joinRequestCreate, h0, hp, hob, hany]

/-- Witness for C2 at the sample states: a duplicate create returns
already_exists with HTTP 200 and the state unchanged, a fresh create inserts
the pending row and returns created with HTTP 201 and the recomputed
counts. -/
theorem claim_C2_create_if_absent_witness :
    joinRequestCreate sampleDB 2 7 11 101 =
      (sampleDB, JRCreateOut.ok 200 "already_exists" 1 0) ∧
    joinRequestCreate sampleDB0 9 7 11 101 =
      ({ sampleDB0 with joinRequests :=
         [{ id := 11, userId := 9, projectId := 7,
            status := ReqStatus.pending, requestedAt := 101 }] },
       JRCreateOut.ok 201 "created" 1 0) := by
  constructor
  · have h := ((claim_C2_create_if_absent sampleDB 2 7 11 101
        (by decide)).2.2 ⟨_, rfl, rfl⟩).1
        ⟨{ id := 10, userId := 2, projectId := 7,
           status := ReqStatus.pending, requestedAt := 100 },
         by decide, rfl, rfl⟩
    exact h.trans (by decide)
  · have h := ((claim_C2_create_if_absent sampleDB0 9 7 11 101
        (by decide)).2.2 ⟨_, rfl, rfl⟩).2 (by decide)
    exact h.trans (by decide)

theorem sendMessage_invalid_eq (db : DB) (rooms : List (Nat × Nat))
    (uid : Nat) (un : String) (pid : Nat) (content : Option String)
    (meta : Option String) (txOk : Bool) (newId now : Nat) (fk : Bool)
    (h : pid = 0 ∨ content = none ∨ ∃ c, content = some c ∧ (jsTrim c).length = 0) :
    sendMessage db rooms uid un pid content meta txOk newId now fk =
      { db := db, broadcast := none,
        ack := SendAck.fail "Invalid payload. content required." } := by
  rcases h with h | h | ⟨c, hc, h⟩
  · cases content <;> simp [sendMessage, h]
  · simp [sendMessage, h]
  · subst hc; simp [sendMessage, h]

theorem sendMessage_tooLong_eq (db : DB) (rooms : List (Nat × Nat))
    (uid : Nat) (un : String) (pid : Nat) (c : String)
    (meta : Option String) (txOk : Bool) (newId now : Nat) (fk : Bool)
    (hpid : pid ≠ 0) (h0 : (jsTrim c).length ≠ 0) (h : 5000 < (jsTrim c).length) :
    sendMessage db rooms uid un pid (some c) meta txOk newId now fk =
      { db := db, broadcast := none, ack := SendAck.fail "Message too long" } := by
  have hp : (pid == 0) = false := by simpa using hpid
  have h0b : ((jsTrim c).length == 0) = false := by simpa using h0
  simp [sendMessage, hp, h0b, h]

theorem sendMessage_notMember_eq (db : DB) (rooms : List (Nat × Nat))
    (uid : Nat) (un : String) (pid : Nat) (c : String)
    (meta : Option String) (txOk : Bool) (newId now : Nat) (fk : Bool)
    (hpid : pid ≠ 0) (h0 : (jsTrim c).length ≠ 0) (hlen : (jsTrim c).length ≤ 5000)
    (hm : isMember db pid uid = false) :
    sendMessage db rooms uid un pid (some c) meta txOk newId now fk =
      { db := db, broadcast := none, ack := SendAck.fail "Not a member" } := by
  have hp : (pid == 0) = false := by simpa using hpid
  have h0b : ((jsTrim c).length == 0) = false := by simpa using h0
  have hnl : ¬((jsTrim c).length > 5000) := by omega
  simp [sendMessage, hp, h0b, hnl, hm]

theorem sendMessage_commit_eq (db : DB) (rooms : List (Nat × Nat))
    (uid : Nat) (un : String) (pid : Nat) (c : String)
    (meta : Option String) (newId now : Nat) (fk : Bool)
    (hpid : pid ≠ 0) (h0 : (jsTrim c).length ≠ 0) (hlen : (jsTrim c).length ≤ 5000)
    (hm : isMember db pid uid = true) :
    sendMessage db rooms uid un pid (some c) meta true newId now fk =
      { db := { db with
          messages := db.messages ++
            [{ id := newId, projectId := pid, senderId := some uid,
               content := jsTrim c, metadata := meta.getD "{}",
               createdAt := now, deleted := false }],
          projects := db.projects.map (fun p =>
            if p.id == pid then
              { p with lastMessageAt := some now, lastMessageId := some newId }
            else p) },
        broadcast := some
          ({ id := newId, project_id := pid, sender_id := uid,
             sender_username := un, content := jsTrim c,
             metadata := meta.getD "{}", created_at := now },
           (rooms.filter (fun rc => rc.1 == pid)).map (fun rc => rc.2)),
        ack := SendAck.ok
          { id := newId, project_id := pid, sender_id := uid,
            sender_username := un, content := jsTrim c,
            metadata := meta.getD "{}", created_at := now } } := by
  have hp : (pid == 0) = false := by simpa using hpid
  have h0b : ((jsTrim c).length == 0) = false := by simpa using h0
  have hnl : ¬((jsTrim c).length > 5000) := by omega
  simp [sendMessage, hp, h0b, hnl, hm]

theorem sendMessage_rollback_eq (db : DB) (rooms : List (Nat × Nat))
    (uid : Nat) (un : String) (pid : Nat) (c : String)
    (meta : Option String) (newId now : Nat) (fk : Bool)
    (hpid : pid ≠ 0) (h0 : (jsTrim c).length ≠ 0) (hlen : (jsTrim c).length ≤ 5000)
    (hm : isMember db pid uid = true) :
    sendMessage db rooms uid un pid (some c) meta false newId now fk =
      { db := db, broadcast := none, ack := SendAck.fail "DB error" } := by
  have hp : (pid == 0) = false := by simpa using hpid
  have h0b : ((jsTrim c).length == 0) = false := by simpa using h0
  have hnl : ¬((jsTrim c).length > 5000) := by omega
  simp [sendMessage, hp, h0b, hnl, hm]

/-- C3: for every send of a chat message, the message-row insert and the
owning project's preview-pointer update happen together in the one committed
transaction; a broadcast is emitted only for a committed transaction and
carries exactly the persisted row; and if the transaction aborts, nothing is
mutated, no broadcast occurs, and the caller receives a failure
acknowledgement. -/
theorem claim_C3_transactional_send (db : DB) (rooms : List (Nat × Nat))
    (uid : Nat) (un : String) (pid : Nat) (c : String)
    (meta : Option String) (txOk : Bool) (newId now : Nat) (fk : Bool)
    (hpid : pid ≠ 0) :
    ∀ out, out = sendMessage db rooms uid un pid (some c) meta txOk newId now fk →
    ((txOk = false →
        out.db = db ∧ out.broadcast = none ∧
        ∃ e, out.ack = SendAck.fail e) ∧
     (∀ pl conns, out.broadcast = some (pl, conns) →
        txOk = true ∧ out.ack = SendAck.ok pl ∧
        out.db.messages = db.messages ++
          [{ id := pl.id, projectId := pid, senderId := some uid,
             content := pl.content, metadata := pl.metadata,
             createdAt := pl.created_at, deleted := false }] ∧
        out.db.projects = db.projects.map (fun p =>
          if p.id == pid then
            { p with lastMessageAt := some pl.created_at,
                     lastMessageId := some pl.id }
          else p)) ∧
     (out.db ≠ db → txOk = true ∧ out.broadcast ≠ none)) := by
  rintro out rfl
  by_cases h0 : (jsTrim c).length = 0
  · rw [sendMessage_invalid_eq db rooms uid un pid (some c) meta txOk newId now fk
      (Or.inr (Or.inr ⟨c, rfl, h0⟩))]
    simp
  · by_cases hl : 5000 < (jsTrim c).length
    · rw [sendMessage_tooLong_eq db rooms uid un pid c meta txOk newId now fk hpid h0 hl]
      simp
    · have hlen : (jsTrim c).length ≤ 5000 := by omega
      cases hm : isMember db pid uid with
      | false =>
        rw [sendMessage_notMember_eq db rooms uid un pid c meta txOk newId now fk
          hpid h0 hlen hm]
        simp
      | true =>
        cases txOk with
        | false =>
          rw [sendMessage_rollback_eq db rooms uid un pid c meta newId now fk
            hpid h0 hlen hm]
          exact ⟨fun _ => ⟨rfl, rfl, "DB error", rfl⟩, by simp, by simp⟩
        | true =>
          rw [sendMessage_commit_eq db rooms uid un pid c meta newId now fk
            hpid h0 hlen hm]
          refine ⟨by simp, ?_, fun _ => ⟨rfl, by simp⟩⟩
          rintro pl conns h
          simp only [Option.some.injEq, Prod.mk.injEq] at h
          obtain ⟨hpl, -⟩ := h
          subst hpl
          exact ⟨rfl, rfl, rfl, rfl⟩

/-- Witness for C3 at the sample state: an aborted transaction leaves the
state unchanged, emits nothing and acknowledges failure. -/
theorem claim_C3_transactional_send_witness :
    (sendMessage sampleDB [(7, 5)] 1 "alice" 7 (some "hi") none false 8 50
       true).db = sampleDB ∧
    (sendMessage sampleDB [(7, 5)] 1 "alice" 7 (some "hi") none false 8 50
       true).broadcast = none ∧
    ∃ e, (sendMessage sampleDB [(7, 5)] 1 "alice" 7 (some "hi") none false 8 50
       true).ack = SendAck.fail e :=
  (claim_C3_transactional_send sampleDB [(7, 5)] 1 "alice" 7 "hi" none false
    8 50 true (by decide) _ rfl).1 rfl

/-- C8: a send is acknowledged with success only when the trimmed content
length lies between 1 and 5000; a missing, empty or all-whitespace content,
and a trimmed content longer than 5000 characters, each yield a validation
failure acknowledgement with the state unchanged and nothing broadcast. -/
theorem claim_C8_content_validation (db : DB) (rooms : List (Nat × Nat))
    (uid : Nat) (un : String) (pid : Nat) (content : Option String)
    (meta : Option String) (txOk : Bool) (newId now : Nat) (fk : Bool) :
    (∀ m, (sendMessage db rooms uid un pid content meta txOk newId now fk).ack
        = SendAck.ok m →
      ∃ c, content = some c ∧ 1 ≤ (jsTrim c).length ∧ (jsTrim c).length ≤ 5000) ∧
    ((content = none ∨ ∃ c, content = some c ∧ (jsTrim c).length = 0) →
      sendMessage db rooms uid un pid content meta txOk newId now fk =
        { db := db, broadcast := none,
          ack := SendAck.fail "Invalid payload. content required." }) ∧
    (∀ c, content = some c → 5000 < (jsTrim c).length → pid ≠ 0 →
      sendMessage db rooms uid un pid content meta txOk newId now fk =
        { db := db, broadcast := none,
          ack := SendAck.fail "Message too long" }) := by
  refine ⟨?_, ?_, ?_⟩
  · intro m hk
    cases content with
    | none =>
      rw [sendMessage_invalid_eq db rooms uid un pid none meta txOk newId now fk
        (Or.inr (Or.inl rfl))] at hk
      exact absurd hk (by simp)
    | some c =>
      by_cases hpid : pid = 0
      · rw [sendMessage_invalid_eq db rooms uid un pid (some c) meta txOk newId
          now fk (Or.inl hpid)] at hk
        exact absurd hk (by simp)
      · by_cases h0 : (jsTrim c).length = 0
        · rw [sendMessage_invalid_eq db rooms uid un pid (some c) meta txOk newId
            now fk (Or.inr (Or.inr ⟨c, rfl, h0⟩))] at hk
          exact absurd hk (by simp)
        · by_cases hl : 5000 < (jsTrim c).length
          · rw [sendMessage_tooLong_eq db rooms uid un pid c meta txOk newId now
              fk hpid h0 hl] at hk
            exact absurd hk (by simp)
          · exact ⟨c, rfl, by omega, by omega⟩
  · intro h
    refine sendMessage_invalid_eq db rooms uid un pid content meta txOk newId
      now fk ?_
    rcases h with h | h
    · exact Or.inr (Or.inl h)
    · exact Or.inr (Or.inr h)
  · rintro c rfl hl hpid
    exact sendMessage_tooLong_eq db rooms uid un pid c meta txOk newId now fk
      hpid (by omega) hl

theorem jsTrim_of_no_whitespace (s : String)
    (h : ∀ ch ∈ s.data, ch.isWhitespace = false) : jsTrim s = s := by
  have h1 : s.data.dropWhile Char.isWhitespace = s.data := by
    cases hd : s.data with
    | nil => rfl
    | cons a l =>
      rw [List.dropWhile_cons]
      have : a.isWhitespace = false := h a (by rw [hd]; exact List.mem_cons_self a l)
      simp [this]
  have h2 : s.data.reverse.dropWhile Char.isWhitespace = s.data.reverse := by
    cases hd : s.data.reverse with
    | nil => rfl
    | cons a l =>
      rw [List.dropWhile_cons]
      have ha : a ∈ s.data := by
        rw [← List.mem_reverse, hd]; exact List.mem_cons_self a l
      simp [h a ha]
  cases s with
  | mk data =>
    simp only [jsTrim] at *
    rw [h1, h2, List.reverse_reverse]

/-- Witness for C8 at the sample state: all-whitespace content and an
oversized content are both rejected with nothing persisted. -/
theorem claim_C8_content_validation_witness :
    sendMessage sampleDB [] 1 "alice" 7 (some "   ") none true 8 50 true =
      { db := sampleDB, broadcast := none,
        ack := SendAck.fail "Invalid payload. content required." } ∧
    sendMessage sampleDB [] 1 "alice" 7
        (some (String.mk (List.replicate 5001 'x'))) none true 8 50 true =
      { db := sampleDB, broadcast := none,
        ack := SendAck.fail "Message too long" } := by
  have hx : ∀ ch ∈ (String.mk (List.replicate 5001 'x')).data,
      ch.isWhitespace = false := by
    intro ch hch
    rw [List.eq_of_mem_replicate hch]
    decide
  have hlen : 5000 < (jsTrim (String.mk (List.replicate 5001 'x'))).length := by
    rw [jsTrim_of_no_whitespace _ hx]
    have h5 : (String.mk (List.replicate 5001 'x')).length = 5001 := by
      show (List.replicate 5001 'x').length = 5001
      rw [List.length_replicate]
    omega
  constructor
  · exact (claim_C8_content_validation sampleDB [] 1 "alice" 7 (some "   ")
      none true 8 50 true).2.1 (Or.inr ⟨"   ", rfl, by decide⟩)
  · exact (claim_C8_content_validation sampleDB [] 1 "alice" 7
      (some (String.mk (List.replicate 5001 'x'))) none true 8 50 true).2.2
      (String.mk (List.replicate 5001 'x')) rfl hlen (by decide)

/-- C9: the handler's whole outcome is independent of the fan-out delivery
outcome, and a committed transaction alone already yields a success
acknowledgement to the sender. -/
theorem claim_C9_fanout_never_surfaced (db : DB) (rooms : List (Nat × Nat))
    (uid : Nat) (un : String) (pid : Nat) (content : Option String)
    (meta : Option String) (txOk : Bool) (newId now : Nat) :
    (∀ fk1 fk2,
       sendMessage db rooms uid un pid content meta txOk newId now fk1 =
       sendMessage db rooms uid un pid content meta txOk newId now fk2) ∧
    (∀ c, content = some c → pid ≠ 0 → (jsTrim c).length ≠ 0 →
       (jsTrim c).length ≤ 5000 → isMember db pid uid = true → txOk = true →
       ∀ fk, ∃ m,
         (sendMessage db rooms uid un pid content meta txOk newId now fk).ack
           = SendAck.ok m) := by
  constructor
  · intro fk1 fk2; rfl
  · rintro c rfl hpid h0 hlen hm rfl fk
    rw [sendMessage_commit_eq db rooms uid un pid c meta newId now fk
      hpid h0 hlen hm]
    exact ⟨_, rfl⟩

/-- Witness for C9 at the sample state: a member's committed send is
acknowledged with success whatever the delivery outcome. -/
theorem claim_C9_fanout_never_surfaced_witness :
    sendMessage sampleDB [(7, 5)] 1 "alice" 7 (some "hi") none true 8 50 true =
      sendMessage sampleDB [(7, 5)] 1 "alice" 7 (some "hi") none true 8 50 false ∧
    ∃ m, (sendMessage sampleDB [(7, 5)] 1 "alice" 7 (some "hi") none true 8 50
      false).ack = SendAck.ok m := by
  constructor
  · exact (claim_C9_fanout_never_surfaced sampleDB [(7, 5)] 1 "alice" 7
      (some "hi") none true 8 50).1 true false
  · exact (claim_C9_fanout_never_surfaced sampleDB [(7, 5)] 1 "alice" 7
      (some "hi") none true 8 50).2 "hi" rfl (by decide) (by decide)
      (by decide) (by decide) rfl false

/-- C5: a non-member of an existing project is rejected by the room join
(with the connection not added to the registry, fail closed), by the message
fetch, and by the message send (nothing persisted, nothing broadcast, no
success acknowledgement), each operation consulting the membership store at
operation time; the send check never reads the room registry, so a send
after membership removal is blocked even when the room join happened
earlier and the connection is still registered in the room. -/
theorem claim_C5_membership_rechecked (db : DB) (rooms : List (Nat × Nat))
    (conn uid : Nat) (un : String) (pid : Nat) (content : Option String)
    (meta : Option String) (txOk : Bool) (newId now : Nat) (fk : Bool)
    (limitQ : Option Int) (before : Option Nat)
    (hpid : pid ≠ 0) (hm : isMember db pid uid = false) :
    joinProject db rooms conn pid uid =
      (rooms, { ok := false, msg := "Not a member of project" }) ∧
    getMessages db uid pid limitQ before =
      FetchOut.httpError 403 "Not a member" ∧
    (sendMessage db rooms uid un pid content meta txOk newId now fk).db = db ∧
    (sendMessage db rooms uid un pid content meta txOk newId now fk).broadcast
      = none ∧
    ∀ m, (sendMessage db rooms uid un pid content meta txOk newId now fk).ack
      ≠ SendAck.ok m := by
  have hp : (pid == 0) = false := by simpa using hpid
  have hout : ∃ e,
      sendMessage db rooms uid un pid content meta txOk newId now fk =
      { db := db, broadcast := none, ack := SendAck.fail e } := by
    cases content with
    | none =>
      exact ⟨_, sendMessage_invalid_eq db rooms uid un pid none meta txOk
        newId now fk (Or.inr (Or.inl rfl))⟩
    | some c =>
      by_cases h0 : (jsTrim c).length = 0
      · exact ⟨_, sendMessage_invalid_eq db rooms uid un pid (some c) meta txOk
          newId now fk (Or.inr (Or.inr ⟨c, rfl, h0⟩))⟩
      · by_cases hl : 5000 < (jsTrim c).length
        · exact ⟨_, sendMessage_tooLong_eq db rooms uid un pid c meta txOk
            newId now fk hpid h0 hl⟩
        · exact ⟨_, sendMessage_notMember_eq db rooms uid un pid c meta txOk
            newId now fk hpid h0 (by omega) hm⟩
  obtain ⟨e, he⟩ := hout
  refine ⟨by simp [joinProject, hp, hm], by simp [getMessages, hp, hm], ?_⟩
  rw [he]
  exact ⟨rfl, rfl, by simp⟩

/-- Witness for C5 at the sample state: user 2 is no member of project 7;
the room join is refused with the registry unchanged (even though socket 9
is already registered in the room), the fetch returns 403, and the send
mutates nothing and is not acknowledged with success. -/
theorem claim_C5_membership_rechecked_witness :
    joinProject sampleDB [(7, 9)] 9 7 2 =
      ([(7, 9)], { ok := false, msg := "Not a member of project" }) ∧
    getMessages sampleDB 2 7 (some 50) none =
      FetchOut.httpError 403 "Not a member" ∧
    (sendMessage sampleDB [(7, 9)] 2 "bob" 7 (some "hi") none true 8 50
      true).db = sampleDB ∧
    (sendMessage sampleDB [(7, 9)] 2 "bob" 7 (some "hi") none true 8 50
      true).broadcast = none ∧
    ∀ m, (sendMessage sampleDB [(7, 9)] 2 "bob" 7 (some "hi") none true 8 50
      true).ack ≠ SendAck.ok m :=
  claim_C5_membership_rechecked sampleDB [(7, 9)] 9 2 "bob" 7 (some "hi")
    none true 8 50 true (some 50) none (by decide) (by decide)

theorem countP_eq_one_of_pairwise_not {α : Type} {l : List α} {p : α → Bool}
    (hwf : l.Pairwise (fun a b => ¬(p a = true ∧ p b = true)))
    (hex : ∃ a ∈ l, p a = true) : l.countP p = 1 := by
  induction l with
  | nil => simp at hex
  | cons a t ih =>
    rcases List.pairwise_cons.mp hwf with ⟨ha, ht⟩
    by_cases pa : p a = true
    · have h0 : t.countP p = 0 := by
        rw [List.countP_eq_zero]
        intro b hb pb
        exact ha b hb ⟨pa, pb⟩
      rw [List.countP_cons_of_pos _ _ pa, h0]
    · obtain ⟨b, hb, pb⟩ := hex
      rcases List.mem_cons.mp hb with hba | hbt
      · exact absurd (hba ▸ pb) pa
      · rw [List.countP_cons_of_neg _ _ pa]
        exact ih ht ⟨b, hbt, pb⟩

theorem transitionGuard_congr (db1 db2 : DB) (rid oid : Nat)
    (h : db1.projects = db2.projects) :
    transitionGuard db1 rid oid = transitionGuard db2 rid oid := by
  funext r
  simp [transitionGuard, h]

theorem acceptRequest_of_empty_guard (db : DB) (rid oid : Nat)
    (h : db.joinRequests.filter (transitionGuard db rid oid) = []) :
    acceptRequest db rid oid = (db, ReqDecisionOut.authError 403
      "Not authorized, request not found, or already handled") := by
  simp [acceptRequest, h]


theorem ensureMember_members_present (db : DB) (pid uid : Nat) (role : Role)
    (h : db.members.any
      (fun m => m.projectId == pid && m.userId == uid) = true) :
    (ensureMember db pid uid role).members = db.members := by
  unfold ensureMember
  rw [if_pos h]

theorem ensureMember_members_absent (db : DB) (pid uid : Nat) (role : Role)
    (h : db.members.any
      (fun m => m.projectId == pid && m.userId == uid) = false) :
    (ensureMember db pid uid role).members = db.members ++
      [{ projectId := pid, userId := uid, role := role }] := by
  unfold ensureMember
  rw [if_neg (by simp [h])]

/-- C7: a successful accept idempotently ensures the membership row for
(projectId, requesterId): a fresh pair is inserted with role member, an
existing pair is left untouched, exactly one membership row for the pair
remains afterwards, and a repeated accept of the now-accepted row fails the
conditional guard and mutates nothing. -/
theorem claim_C7_accept_membership_idempotent (db : DB) (rid oid : Nat)
    (hwfm : db.members.Pairwise
      (fun a b => ¬(a.projectId = b.projectId ∧ a.userId = b.userId)))
    (hwfr : db.joinRequests.Pairwise (fun a b => a.id ≠ b.id))
    (r : JoinRequest) (hr : r ∈ db.joinRequests)
    (hg : transitionGuard db rid oid r = true) :
    (acceptRequest db rid oid).1.members.countP
      (fun m => m.projectId == r.projectId && m.userId == r.userId) = 1 ∧
    (isMember db r.projectId r.userId = false →
      ({ projectId := r.projectId, userId := r.userId, role := Role.member }
        : MemberRow) ∈ (acceptRequest db rid oid).1.members) ∧
    (isMember db r.projectId r.userId = true →
      (acceptRequest db rid oid).1.members = db.members) ∧
    acceptRequest (acceptRequest db rid oid).1 rid oid =
      ((acceptRequest db rid oid).1, ReqDecisionOut.authError 403
        "Not authorized, request not found, or already handled") := by
  have hrf : r ∈ db.joinRequests.filter (transitionGuard db rid oid) :=
    List.mem_filter.mpr ⟨hr, hg⟩
  cases hc : db.joinRequests.filter (transitionGuard db rid oid) with
  | nil => rw [hc] at hrf; simp at hrf
  | cons u rest =>
    have humem : u ∈ db.joinRequests ∧ transitionGuard db rid oid u = true := by
      have hin : u ∈ db.joinRequests.filter (transitionGuard db rid oid) := by
        rw [hc]; exact List.mem_cons_self u rest
      exact ⟨(List.mem_filter.mp hin).1, (List.mem_filter.mp hin).2⟩
    have hur : u = r := by
      by_contra hne
      have h1 : u.id ≠ r.id :=
        List.Pairwise.forall (fun x y h => h.symm) hwfr humem.1 hr hne
      have h2 : u.id = rid := by
        have h := humem.2
        simp only [transitionGuard, Bool.and_eq_true, beq_iff_eq] at h
        exact h.1.1
      have h3 : r.id = rid := by
        have h := hg
        simp only [transitionGuard, Bool.and_eq_true, beq_iff_eq] at h
        exact h.1.1
      exact h1 (h2.trans h3.symm)
    rw [hur] at hc
    have hacc : acceptRequest db rid oid =
        (ensureMember
          { db with joinRequests := db.joinRequests.map (fun q =>
              if transitionGuard db rid oid q then
                { q with status := ReqStatus.accepted } else q) }
          r.projectId r.userId Role.member,
         ReqDecisionOut.ok r.id ReqStatus.accepted r.userId r.projectId) := by
      simp [acceptRequest, hc]
    rw [hacc]
    dsimp only
    -- the second accept finds no row passing the guard
    have hempty : ∀ E : DB,
        E.joinRequests = db.joinRequests.map (fun q =>
          if transitionGuard db rid oid q then
            { q with status := ReqStatus.accepted } else q) →
        E.projects = db.projects →
        E.joinRequests.filter (transitionGuard E rid oid) = [] := by
      intro E hEj hEp
      rw [transitionGuard_congr E db rid oid hEp, hEj, List.filter_eq_nil_iff]
      intro x hx
      obtain ⟨y, hy, hxy⟩ := List.mem_map.mp hx
      by_cases hgy : transitionGuard db rid oid y = true
      · rw [if_pos hgy] at hxy
        subst hxy
        simp [transitionGuard]
      · rw [if_neg hgy] at hxy
        subst hxy
        exact hgy
    have hsecond := acceptRequest_of_empty_guard
      (ensureMember
        { db with joinRequests := db.joinRequests.map (fun q =>
            if transitionGuard db rid oid q then
              { q with status := ReqStatus.accepted } else q) }
        r.projectId r.userId Role.member) rid oid
      (hempty _ (ensureMember_joinRequests _ _ _ _) (ensureMember_projects _ _ _ _))
    by_cases hpres : db.members.any
        (fun m => m.projectId == r.projectId && m.userId == r.userId) = true
    · have hmemEq : (ensureMember
          { db with joinRequests := db.joinRequests.map (fun q =>
              if transitionGuard db rid oid q then
                { q with status := ReqStatus.accepted } else q) }
          r.projectId r.userId Role.member).members = db.members :=
        ensureMember_members_present _ _ _ _ hpres
      rw [hmemEq]
      refine ⟨?_, ?_, fun _ => rfl, hsecond⟩
      · apply countP_eq_one_of_pairwise_not
        · refine List.Pairwise.imp ?_ hwfm
          intro a b hab hp
          obtain ⟨pa, pb⟩ := hp
          simp only [Bool.and_eq_true, beq_iff_eq] at pa pb
          exact hab ⟨pa.1.trans pb.1.symm, pa.2.trans pb.2.symm⟩
        · exact List.any_eq_true.mp hpres
      · intro habs
        simp only [isMember] at habs
        rw [habs] at hpres
        exact absurd hpres (by simp)
    · have hanyf : db.members.any
          (fun m => m.projectId == r.projectId && m.userId == r.userId)
          = false := by simpa using hpres
      have hmemEq : (ensureMember
          { db with joinRequests := db.joinRequests.map (fun q =>
              if transitionGuard db rid oid q then
                { q with status := ReqStatus.accepted } else q) }
          r.projectId r.userId Role.member).members = db.members ++
            [{ projectId := r.projectId, userId := r.userId,
               role := Role.member }] :=
        ensureMember_members_absent _ _ _ _ hanyf
      rw [hmemEq]
      refine ⟨?_, fun _ => List.mem_append_right _ (by simp), ?_, hsecond⟩
      · rw [List.countP_append]
        have h0 : db.members.countP
            (fun m => m.projectId == r.projectId && m.userId == r.userId)
            = 0 := by
          rw [List.countP_eq_zero]
          intro a ha hpa
          have : db.members.any
              (fun m => m.projectId == r.projectId && m.userId == r.userId)
              = true := List.any_eq_true.mpr ⟨a, ha, hpa⟩
          rw [this] at hanyf
          cases hanyf
        rw [h0]
        simp
      · intro hmem
        simp only [isMember] at hmem
        rw [hmem] at hanyf
        cases hanyf

/-- Witness for C7 at the sample state: the owner's accept of pending
request 10 leaves exactly one membership row for (project 7, user 2) and a
repeated accept fails the guard and mutates nothing. -/
theorem claim_C7_accept_membership_idempotent_witness :
    (acceptRequest sampleDB 10 1).1.members.countP
      (fun m => m.projectId == (7 : Nat) && m.userId == (2 : Nat)) = 1 ∧
    acceptRequest (acceptRequest sampleDB 10 1).1 10 1 =
      ((acceptRequest sampleDB 10 1).1, ReqDecisionOut.authError 403
        "Not authorized, request not found, or already handled") := by
  have h := claim_C7_accept_membership_idempotent sampleDB 10 1 (by decide)
    (by decide)
    { id := 10, userId := 2, projectId := 7,
      status := ReqStatus.pending, requestedAt := 100 }
    (by decide) (by decide)
  exact ⟨h.1, h.2.2.2⟩

theorem joinRequestCreate_state (db : DB) (uid pid newId now : Nat) :
    (joinRequestCreate db uid pid newId now).1 = db ∨
    ((joinRequestCreate db uid pid newId now).1 =
       { db with joinRequests := db.joinRequests ++
         [{ id := newId, userId := uid, projectId := pid,
            status := ReqStatus.pending, requestedAt := now }] } ∧
     (∃ p, findProject db pid = some p ∧ ownBlock p uid = false) ∧
     db.joinRequests.any
       (fun r => r.userId == uid && r.projectId == pid) = false) := by
  by_cases h0 : (pid == 0) = true
  · exact Or.inl (by simp [joinRequestCreate, h0])
  · have h0f : (pid == 0) = false := by simpa using h0
    cases hfp : findProject db pid with
    | none => exact Or.inl (by simp [joinRequestCreate, h0f, hfp])
    | some p =>
      by_cases hob : ownBlock p uid = true
      · exact Or.inl (by simp [joinRequestCreate, h0f, hfp, hob])
      · have hobf : ownBlock p uid = false := by simpa using hob
        by_cases hany : db.joinRequests.any
            (fun r => r.userId == uid && r.projectId == pid) = true
        · exact Or.inl (by simp [joinRequestCreate, h0f, hfp, hobf, hany])
        · have hanyf : db.joinRequests.any
              (fun r => r.userId == uid && r.projectId == pid) = false := by
            simpa using hany
          refine Or.inr ⟨by simp [joinRequestCreate, h0f, hfp, hobf, hanyf],
            ⟨p, rfl, hobf⟩, hanyf⟩

theorem acceptRequest_state (db : DB) (rid oid : Nat) :
    (acceptRequest db rid oid).1 = db ∨
    ((acceptRequest db rid oid).1.joinRequests =
       db.joinRequests.map (fun q =>
         if transitionGuard db rid oid q then
           { q with status := ReqStatus.accepted } else q) ∧
     (acceptRequest db rid oid).1.projects = db.projects) := by
  cases hc : db.joinRequests.filter (transitionGuard db rid oid) with
  | nil => exact Or.inl (by simp [acceptRequest, hc])
  | cons u rest =>
    refine Or.inr ⟨?_, ?_⟩
    · have : acceptRequest db rid oid =
          (ensureMember
            { db with joinRequests := db.joinRequests.map (fun q =>
                if transitionGuard db rid oid q then
                  { q with status := ReqStatus.accepted } else q) }
            u.projectId u.userId Role.member,
           ReqDecisionOut.ok u.id ReqStatus.accepted u.userId u.projectId) := by
        simp [acceptRequest, hc]
      rw [this]
      exact ensureMember_joinRequests _ _ _ _
    · have : acceptRequest db rid oid =
          (ensureMember
            { db with joinRequests := db.joinRequests.map (fun q =>
                if transitionGuard db rid oid q then
                  { q with status := ReqStatus.accepted } else q) }
            u.projectId u.userId Role.member,
           ReqDecisionOut.ok u.id ReqStatus.accepted u.userId u.projectId) := by
        simp [acceptRequest, hc]
      rw [this]
      exact ensureMember_projects _ _ _ _

theorem rejectRequest_state (db : DB) (rid oid : Nat) :
    (rejectRequest db rid oid).1 = db ∨
    ((rejectRequest db rid oid).1.joinRequests =
       db.joinRequests.map (fun q =>
         if transitionGuard db rid oid q then
           { q with status := ReqStatus.rejected } else q) ∧
     (rejectRequest db rid oid).1.projects = db.projects) := by
  cases hc : db.joinRequests.filter (transitionGuard db rid oid) with
  | nil => exact Or.inl (by simp [rejectRequest, hc])
  | cons u rest => exact Or.inr ⟨by simp [rejectRequest, hc], by simp [rejectRequest, hc]⟩

theorem statusMap_fields (g : JoinRequest → Bool) (st : ReqStatus)
    (q : JoinRequest) :
    (if g q then { q with status := st } else q).userId = q.userId ∧
    (if g q then { q with status := st } else q).projectId = q.projectId := by
  split <;> exact ⟨rfl, rfl⟩

theorem statusMap_pairwise (l : List JoinRequest) (g : JoinRequest → Bool)
    (st : ReqStatus)
    (huniq : l.Pairwise
      (fun a b => ¬(a.userId = b.userId ∧ a.projectId = b.projectId))) :
    (l.map (fun q => if g q then { q with status := st } else q)).Pairwise
      (fun a b => ¬(a.userId = b.userId ∧ a.projectId = b.projectId)) := by
  rw [List.pairwise_map]
  refine huniq.imp ?_
  intro a b hab hcon
  rw [(statusMap_fields g st a).1, (statusMap_fields g st b).1,
    (statusMap_fields g st a).2, (statusMap_fields g st b).2] at hcon
  exact hab hcon

theorem statusMap_own (l : List JoinRequest) (ps : List Project)
    (g : JoinRequest → Bool) (st : ReqStatus)
    (hown : ∀ r ∈ l, ∀ p ∈ ps,
      p.id = r.projectId → p.createdById ≠ some r.userId) :
    ∀ r ∈ l.map (fun q => if g q then { q with status := st } else q),
      ∀ p ∈ ps, p.id = r.projectId → p.createdById ≠ some r.userId := by
  intro r hr p hp hid
  obtain ⟨y, hy, hyx⟩ := List.mem_map.mp hr
  have hu : r.userId = y.userId := by
    rw [← hyx]; exact (statusMap_fields g st y).1
  have hpj : r.projectId = y.projectId := by
    rw [← hyx]; exact (statusMap_fields g st y).2
  rw [hu]
  exact hown y hy p hp (by rw [hid, hpj])

/-- C4: the join-request invariants — at most one row per (userId,
projectId) pair, and no project owner holding a request for their own
project — are preserved by create, accept and reject, under the schema
facts that project ids are unique and real owner ids are nonzero. -/
theorem claim_C4_invariants_preserved (db : DB)
    (hwfp : db.projects.Pairwise (fun a b => a.id ≠ b.id))
    (hwfz : ∀ p ∈ db.projects, p.createdById ≠ some 0)
    (huniq : db.joinRequests.Pairwise
      (fun a b => ¬(a.userId = b.userId ∧ a.projectId = b.projectId)))
    (hown : ∀ r ∈ db.joinRequests, ∀ p ∈ db.projects,
      p.id = r.projectId → p.createdById ≠ some r.userId) :
    ∀ uid pid newId now rid oid db1,
      (db1 = (joinRequestCreate db uid pid newId now).1 ∨
       db1 = (acceptRequest db rid oid).1 ∨
       db1 = (rejectRequest db rid oid).1) →
      db1.projects = db.projects ∧
      db1.joinRequests.Pairwise
        (fun a b => ¬(a.userId = b.userId ∧ a.projectId = b.projectId)) ∧
      ∀ r ∈ db1.joinRequests, ∀ p ∈ db1.projects,
        p.id = r.projectId → p.createdById ≠ some r.userId := by
  intro uid pid newId now rid oid db1 hdb1
  rcases hdb1 with h | h | h
  · rcases joinRequestCreate_state db uid pid newId now with
      hs | ⟨hs, ⟨p, hfp, hob⟩, hany⟩
    · rw [h, hs]; exact ⟨rfl, huniq, hown⟩
    · rw [h, hs]
      refine ⟨rfl, ?_, ?_⟩
      · show (db.joinRequests ++ _).Pairwise _
        rw [List.pairwise_append]
        refine ⟨huniq, List.pairwise_singleton _ _, ?_⟩
        intro a ha b hb
        rw [List.mem_singleton] at hb
        subst hb
        intro hcon
        have hat : db.joinRequests.any
            (fun r => r.userId == uid && r.projectId == pid) = true :=
          List.any_eq_true.mpr ⟨a, ha, by simp [hcon.1, hcon.2]⟩
        rw [hat] at hany
        cases hany
      · intro r hr q hq hid
        rw [List.mem_append] at hr
        rcases hr with hr | hr
        · exact hown r hr q hq hid
        · rw [List.mem_singleton] at hr
          subst hr
          have hpmem : p ∈ db.projects := List.mem_of_find?_eq_some hfp
          have hpid3 : p.id = pid := by
            have := List.find?_some hfp
            simpa using this
          have hqp : q = p := by
            by_contra hne
            have hne2 := List.Pairwise.forall
              (fun x y hxy => hxy.symm) hwfp hq hpmem hne
            exact hne2 (by rw [hid]; exact hpid3.symm)
          subst hqp
          intro hco
          cases hcb : q.createdById with
          | none => rw [hcb] at hco; cases hco
          | some o =>
            rw [hcb] at hco
            injection hco with ho
            have hobf := hob
            simp only [ownBlock, hcb] at hobf
            by_cases ho0 : o = 0
            · exact hwfz q hpmem (by rw [hcb, ho0])
            · have h1 : (o == 0) = false := by simpa using ho0
              simp only [h1, Bool.not_false, Bool.true_and] at hobf
              have : o ≠ uid := by simpa using hobf
              exact this ho
  · rcases acceptRequest_state db rid oid with hs | ⟨hsj, hsp⟩
    · rw [h, hs]; exact ⟨rfl, huniq, hown⟩
    · subst h
      refine ⟨hsp, ?_, ?_⟩
      · rw [hsj]
        exact statusMap_pairwise _ _ _ huniq
      · rw [hsj, hsp]
        exact statusMap_own _ _ _ _ hown
  · rcases rejectRequest_state db rid oid with hs | ⟨hsj, hsp⟩
    · rw [h, hs]; exact ⟨rfl, huniq, hown⟩
    · subst h
      refine ⟨hsp, ?_, ?_⟩
      · rw [hsj]
        exact statusMap_pairwise _ _ _ huniq
      · rw [hsj, hsp]
        exact statusMap_own _ _ _ _ hown

/-- Witness for C4 at the sample states: a fresh create keeps the pair
uniqueness, and the owner's accept keeps the no-own-request property. -/
theorem claim_C4_invariants_preserved_witness :
    (joinRequestCreate sampleDB0 2 7 11 101).1.joinRequests.Pairwise
      (fun a b => ¬(a.userId = b.userId ∧ a.projectId = b.projectId)) ∧
    ∀ r ∈ (acceptRequest sampleDB 10 1).1.joinRequests,
      ∀ p ∈ (acceptRequest sampleDB 10 1).1.projects,
        p.id = r.projectId → p.createdById ≠ some r.userId := by
  constructor
  · exact (claim_C4_invariants_preserved sampleDB0 (by decide) (by decide)
      (by decide) (by decide) 2 7 11 101 0 0 _ (Or.inl rfl)).2.1
  · exact (claim_C4_invariants_preserved sampleDB (by decide) (by decide)
      (by decide) (by decide) 0 0 0 0 10 1 _ (Or.inr (Or.inl rfl))).2.2

/-- C10: the messages endpoint clamps the limit only from above — the
effective limit is min(parsed, 200), with 50 substituted for a missing,
zero or non-numeric parameter; a negative parsed limit reaches the store
unvalidated, which rejects the negative LIMIT so the handler answers with
the generic 500, and no shape of the limit parameter produces a 400. -/
theorem claim_C10_limit_clamping (db : DB) (uid pid : Nat)
    (before : Option Nat) (hpid : pid ≠ 0) (hm : isMember db pid uid = true) :
    effectiveLimit none = 50 ∧
    effectiveLimit (some 0) = 50 ∧
    (∀ v : Int, v ≠ 0 → effectiveLimit (some v) = min v 200) ∧
    (∀ v : Int, v < 0 →
       getMessages db uid pid (some v) before =
         FetchOut.httpError 500 "Server error") ∧
    (∀ limitQ : Option Int, ∀ st m,
       getMessages db uid pid limitQ before = FetchOut.httpError st m →
       st = 500) := by
  have hp : (pid == 0) = false := by simpa using hpid
  refine ⟨rfl, rfl, ?_, ?_, ?_⟩
  · intro v hv
    have hvb : (v == 0) = false := by simpa using hv
    simp [effectiveLimit, hvb]
  · intro v hv
    have hvb : (v == 0) = false := by
      simpa using (by omega : v ≠ 0)
    have heff : effectiveLimit (some v) = min v 200 := by
      simp [effectiveLimit, hvb]
    have hneg : effectiveLimit (some v) < 0 := by
      rw [heff]; omega
    simp [getMessages, hp, hm, sqlLimit, hneg]
  · intro limitQ st m hout
    by_cases hneg : effectiveLimit limitQ < 0
    · have : getMessages db uid pid limitQ before =
          FetchOut.httpError 500 "Server error" := by
        simp [getMessages, hp, hm, sqlLimit, hneg]
      rw [this] at hout
      cases hout
      rfl
    · have : getMessages db uid pid limitQ before =
          FetchOut.ok ((fetchSorted db.messages pid before).take
            (effectiveLimit limitQ).toNat) := by
        simp [getMessages, hp, hm, sqlLimit, hneg]
      rw [this] at hout
      cases hout

/-- Witness for C10 at the sample state: a negative limit yields the
generic 500 and the default limit is 50. -/
theorem claim_C10_limit_clamping_witness :
    getMessages sampleDB 1 7 (some (-5)) none =
      FetchOut.httpError 500 "Server error" ∧
    effectiveLimit none = 50 := by
  have h := claim_C10_limit_clamping sampleDB 1 7 none (by decide) (by decide)
  exact ⟨h.2.2.2.1 (-5) (by decide), h.1⟩

theorem newestFirst_trans (a b c : Message) (h1 : newestFirst a b = true)
    (h2 : newestFirst b c = true) : newestFirst a c = true := by
  simp only [newestFirst, decide_eq_true_eq] at h1 h2 ⊢
  omega

theorem newestFirst_total (a b : Message) :
    (newestFirst a b || newestFirst b a) = true := by
  simp only [newestFirst, Bool.or_eq_true, decide_eq_true_eq]
  omega

theorem fetchSorted_sorted (msgs : List Message) (pid : Nat)
    (before : Option Nat) :
    List.Sorted (fun a b : Message => b.createdAt ≤ a.createdAt)
      (fetchSorted msgs pid before) := by
  have h := List.sorted_mergeSort newestFirst_trans newestFirst_total
    (msgs.filter (fetchKeep pid before))
  refine h.imp ?_
  intro a b hab
  simpa [newestFirst] using hab

theorem fetchSorted_perm (msgs : List Message) (pid : Nat)
    (before : Option Nat) :
    (fetchSorted msgs pid before).Perm (msgs.filter (fetchKeep pid before)) :=
  List.mergeSort_perm _ _

theorem mem_fetchSorted (msgs : List Message) (pid : Nat)
    (before : Option Nat) (m : Message) :
    m ∈ fetchSorted msgs pid before ↔
      m ∈ msgs ∧ fetchKeep pid before m = true := by
  rw [fetchSorted, List.mem_mergeSort, List.mem_filter]

theorem fetchKeep_none_and (pid c : Nat) (m : Message) :
    fetchKeep pid (some c) m =
      (decide (m.createdAt < c) && fetchKeep pid none m) := by
  cases h1 : (m.projectId == pid) <;> cases h2 : m.deleted <;>
    cases h3 : decide (m.createdAt < c) <;>
      simp [fetchKeep, cursorKeep, h1, h2, h3]

theorem filter_fetchKeep_some (msgs : List Message) (pid c : Nat) :
    msgs.filter (fetchKeep pid (some c)) =
      (msgs.filter (fetchKeep pid none)).filter
        (fun m => decide (m.createdAt < c)) := by
  rw [List.filter_filter]
  exact List.filter_congr (fun m _ => fetchKeep_none_and pid c m)

theorem fetchSorted_strict (msgs : List Message) (pid : Nat)
    (before : Option Nat)
    (hdist : (msgs.filter (fetchKeep pid before)).Pairwise
      (fun a b => a.createdAt ≠ b.createdAt)) :
    (fetchSorted msgs pid before).Pairwise
      (fun a b => b.createdAt < a.createdAt) := by
  have hd2 : (fetchSorted msgs pid before).Pairwise
      (fun a b => a.createdAt ≠ b.createdAt) :=
    (List.Perm.pairwise_iff (fun h => h.symm)
      (fetchSorted_perm msgs pid before)).mpr hdist
  refine ((fetchSorted_sorted msgs pid before).and hd2).imp ?_
  intro a b hab
  exact lt_of_le_of_ne hab.1 hab.2.symm

theorem filter_lt_key_eq_drop (L : List Message)
    (hs : L.Pairwise (fun a b => b.createdAt < a.createdAt)) :
    ∀ k (hk : k < L.length),
      L.filter (fun m => decide (m.createdAt < (L.get ⟨k, hk⟩).createdAt)) =
        L.drop (k + 1) := by
  induction L with
  | nil => intro k hk; simp at hk
  | cons x tl ih =>
    intro k hk
    rcases List.pairwise_cons.mp hs with ⟨hx, htl⟩
    cases k with
    | zero =>
      have hkey : ((x :: tl).get ⟨0, hk⟩) = x := rfl
      rw [hkey, List.filter_cons, if_neg (by simp),
        List.filter_eq_self.mpr (fun m hm => by simpa using hx m hm)]
      rfl
    | succ k =>
      have hk2 : k < tl.length := by
        simpa using Nat.lt_of_succ_lt_succ hk
      have hkey : ((x :: tl).get ⟨k + 1, hk⟩) = tl.get ⟨k, hk2⟩ := rfl
      have hxge : (tl.get ⟨k, hk2⟩).createdAt < x.createdAt :=
        hx _ (List.get_mem tl k hk2)
      rw [hkey, List.filter_cons,
        if_neg (by simp only [decide_eq_true_eq]; omega),
        List.drop_succ_cons]
      exact ih htl k hk2

theorem fetchSorted_cursor (msgs : List Message) (pid c : Nat)
    (hdist : (msgs.filter (fetchKeep pid none)).Pairwise
      (fun a b => a.createdAt ≠ b.createdAt)) :
    fetchSorted msgs pid (some c) =
      (fetchSorted msgs pid none).filter
        (fun m => decide (m.createdAt < c)) := by
  haveI : IsAntisymm Message (fun a b => b.createdAt < a.createdAt) :=
    ⟨fun a b h1 h2 => absurd (h1.trans h2) (lt_irrefl _)⟩
  have hdsome : (msgs.filter (fetchKeep pid (some c))).Pairwise
      (fun a b => a.createdAt ≠ b.createdAt) := by
    rw [filter_fetchKeep_some]
    exact hdist.filter _
  apply List.eq_of_perm_of_sorted
    (r := fun a b : Message => b.createdAt < a.createdAt)
  · have h1 : (fetchSorted msgs pid (some c)).Perm
        ((msgs.filter (fetchKeep pid none)).filter
          (fun m => decide (m.createdAt < c))) := by
      have := fetchSorted_perm msgs pid (some c)
      rwa [filter_fetchKeep_some msgs pid c] at this
    have h2 : ((fetchSorted msgs pid none).filter
        (fun m => decide (m.createdAt < c))).Perm
        ((msgs.filter (fetchKeep pid none)).filter
          (fun m => decide (m.createdAt < c))) :=
      List.Perm.filter _ (fetchSorted_perm msgs pid none)
    exact h1.trans h2.symm
  · exact fetchSorted_strict msgs pid (some c) hdsome
  · exact (fetchSorted_strict msgs pid none hdist).filter _

/-- C6: a member's fetch returns at most min(limit, 200) messages, all
non-deleted rows of the project, strictly older than the cursor when one is
given, ordered by createdAt descending; and with distinct per-project
createdAt values, fetching with the cursor taken from position k of the full
sorted list returns exactly the next block (the list dropped past k), so
successive pages that use each page's oldest timestamp as the next cursor
never repeat and never skip a message. -/
theorem claim_C6_fetch_pagination (db : DB) (uid pid : Nat) (v : Int)
    (before : Option Nat) (hpid : pid ≠ 0) (hm : isMember db pid uid = true)
    (hv : 0 < v) :
    (∃ l, getMessages db uid pid (some v) before = FetchOut.ok l ∧
       l.length ≤ min v.toNat 200 ∧
       (∀ m ∈ l, m ∈ db.messages ∧ m.projectId = pid ∧ m.deleted = false ∧
         ∀ c, before = some c → m.createdAt < c) ∧
       List.Sorted (fun a b : Message => b.createdAt ≤ a.createdAt) l) ∧
    ((db.messages.filter (fetchKeep pid none)).Pairwise
        (fun a b => a.createdAt ≠ b.createdAt) →
      ∀ n : Nat,
        fetchList db.messages pid none n =
          (fetchSorted db.messages pid none).take n ∧
        ∀ k (hk : k < (fetchSorted db.messages pid none).length),
          fetchList db.messages pid
              (some (((fetchSorted db.messages pid none).get
                ⟨k, hk⟩).createdAt)) n =
            ((fetchSorted db.messages pid none).drop (k + 1)).take n) := by
  constructor
  · have hp : (pid == 0) = false := by simpa using hpid
    have hvb : (v == 0) = false := by simpa using hv.ne'
    have heff : effectiveLimit (some v) = min v 200 := by
      simp [effectiveLimit, hvb]
    have hnn : ¬effectiveLimit (some v) < 0 := by rw [heff]; omega
    refine ⟨(fetchSorted db.messages pid before).take
      (effectiveLimit (some v)).toNat, ?_, ?_, ?_, ?_⟩
    · simp [getMessages, hp, hm, sqlLimit, hnn]
    · rw [List.length_take, heff]
      have htn : (min v 200).toNat = min v.toNat 200 := by omega
      rw [htn]
      exact min_le_left _ _
    · intro m hmem
      have hsub : m ∈ fetchSorted db.messages pid before :=
        List.mem_of_mem_take hmem
      rw [mem_fetchSorted] at hsub
      obtain ⟨hmm, hk⟩ := hsub
      simp only [fetchKeep, Bool.and_eq_true, beq_iff_eq,
        Bool.not_eq_eq_eq_not, Bool.not_true] at hk
      refine ⟨hmm, hk.1.1, hk.1.2, ?_⟩
      intro c hc
      subst hc
      simpa [cursorKeep] using hk.2
    · exact List.Pairwise.sublist (List.take_sublist _ _)
        (fetchSorted_sorted db.messages pid before)
  · intro hdist n
    refine ⟨rfl, ?_⟩
    intro k hk
    have hstrict := fetchSorted_strict db.messages pid none hdist
    have hcur := fetchSorted_cursor db.messages pid
      (((fetchSorted db.messages pid none).get ⟨k, hk⟩).createdAt) hdist
    show (fetchSorted db.messages pid (some _)).take n = _
    rw [hcur, filter_lt_key_eq_drop _ hstrict k hk]

/-- Witness for C6 at the sample state: a member's fetch of project 7 with
limit 50 succeeds with a bounded, filtered, descending result. -/
theorem claim_C6_fetch_pagination_witness :
    ∃ l, getMessages sampleDB 1 7 (some 50) none = FetchOut.ok l ∧
      l.length ≤ min (50 : Int).toNat 200 ∧
      (∀ m ∈ l, m ∈ sampleDB.messages ∧ m.projectId = 7 ∧ m.deleted = false ∧
        ∀ c, (none : Option Nat) = some c → m.createdAt < c) ∧
      List.Sorted (fun a b : Message => b.createdAt ≤ a.createdAt) l :=
  (claim_C6_fetch_pagination sampleDB 1 7 50 none (by decide) (by decide)
    (by decide)).1
